import Mathlib

/-!
# Verification of the autoSOC override-submission core

Shallow embedding of `src/JS/add_override(s)_to_specific_certificate_with_basic_validation.js`
(the de-duplicated behavioural core of the repository): the required-field
validator, the `createNewOverride` record builder, the form-data submission
payload, and the fetch-response classifier.  The cascading dropdown resolver,
whose implementation lives in the remote application's `app.min.js` and is
present in this repository only as flow notes (`!_kendo overview.js`) and
trigger tests, is modelled from the specification (§4.3).
-/

namespace AutoSOC

/-- A JavaScript value as it appears in the object literals of the source.
the `undefined` constructor models JS `undefined`; `JSON.stringify` drops object entries whose
value is `undefined`, which is how the source suppresses the `Id` field for
new records. A numeric `NaN` never reaches a kept record field in the
modelled paths except via `parseInt`, where `JSON.stringify` would render it
as `null`; that rendering is folded into `jnumOfParse` below. -/
inductive JVal where
  | null
  | undefined
  | bool (b : Bool)
  | num (n : Int)
  | str (s : String)
  | arr (xs : List JVal)
  | obj (fields : List (String × JVal))

/-- Whether a JS value is `undefined` (dropped by `JSON.stringify`). -/
def JVal.isUndefined : JVal → Bool
  | .undefined => true
  | _ => false

/-- A caller-supplied override intent: the property bag passed to
`addOverride`.  Each property is `Option`-valued because a JS object may
simply lack the property (reading it yields `undefined`).
`additionalValueRemoved` appears in the specification's data model (§3) as an
optional intent field; the source never reads any removed-side additional
value, and the field is carried here so that theorems can state that fact. -/
structure OverrideIntent where
  tagNumber : Option String
  description : Option String
  typeId : Option Int
  methodId : Option Int
  appliedStateId : Option Int
  removedStateId : Option Int
  comment : Option String
  additionalValue : Option String
  additionalValueRemoved : Option String
  typeTitle : Option String
  methodTitle : Option String
  appliedStateTitle : Option String
  removedStateTitle : Option String

/-- JS truthiness test `!x` for a possibly-absent string property:
falsy when the property is absent (`undefined`) or the empty string. -/
def strFalsy : Option String → Bool
  | none => true
  | some s => s = ""

/-- JS truthiness test `!x` for a possibly-absent numeric id property:
falsy when the property is absent (`undefined`) or `0`. -/
def idFalsy : Option Int → Bool
  | none => true
  | some n => n = 0

/-- The per-intent required-field check of `addOverride` (lines 29-34 of the
source): one `<field> is required` message per falsy required field, in
source order. -/
def requiredFieldErrors (override : OverrideIntent) : List String :=
  (if strFalsy override.tagNumber then ["tagNumber is required"] else []) ++
  (if strFalsy override.description then ["description is required"] else []) ++
  (if idFalsy override.typeId then ["typeId is required"] else []) ++
  (if idFalsy override.methodId then ["methodId is required"] else []) ++
  (if idFalsy override.appliedStateId then ["appliedStateId is required"] else []) ++
  (if idFalsy override.removedStateId then ["removedStateId is required"] else [])

/-- The `forEach` loop of `addOverride` collecting one
`Override <n>: <errors>` line per invalid intent (`n` is 1-based).
The counter argument carries the current 0-based index. -/
def collectValidationErrors (i : Nat) : List OverrideIntent → List String
  | [] => []
  | o :: os =>
      let overrideErrors := requiredFieldErrors o
      (if overrideErrors.isEmpty then []
       else ["Override " ++ toString (i + 1) ++ ": " ++
             String.intercalate ", " overrideErrors]) ++
      collectValidationErrors (i + 1) os

/-- JS `x || d` for a possibly-absent string property with default `d`. -/
def jsOrStr (v : Option String) (d : String) : String :=
  match v with
  | some s => if s = "" then d else s
  | none => d

/-- A string-typed record field taken verbatim from the intent
(e.g. `TagNumber: override.tagNumber`). An absent property reads as
`undefined`. -/
def jstrField : Option String → JVal
  | some s => .str s
  | none => .undefined

/-- An id field serialized as `override.xId.toString()`.  The source reaches
this only after validation has established the property is present and
non-zero; the absent case (which would throw in JS) is modelled as
JS `undefined` and is unreachable on the validated path. -/
def jidStr : Option Int → JVal
  | some n => .str (toString n)
  | none => .undefined

/-- `parseInt(s)` in base 10: skip leading spaces, optional sign, then the
maximal run of decimal digits; `NaN` (here `none`) when no digit is found. -/
def parseIntJS (s : String) : Option Int :=
  let digitsVal : List Char → Option Nat := fun cs =>
    let ds := cs.takeWhile Char.isDigit
    if ds.isEmpty then none
    else some (ds.foldl (fun a c => a * 10 + (c.toNat - 48)) 0)
  match s.data.dropWhile (fun c => c = ' ') with
  | '-' :: rest => (digitsVal rest).map (fun n => -(n : Int))
  | '+' :: rest => (digitsVal rest).map (fun n => (n : Int))
  | cs => (digitsVal cs).map (fun n => (n : Int))

/-- `SystemOverrideCertificateId: parseInt(certificateId)`, as it appears on
the wire: `JSON.stringify` renders the `NaN` of a failed parse as `null`. -/
def jnumOfParse : Option Int → JVal
  | some n => .num n
  | none => .null

/-- The display title of the "Not Applied" current-state sentinel. -/
def notAppliedTitle : String := "Не применено"

/-- `createNewOverride` (lines 54-101 of the source): the complete override
object built for one intent, with fields in source order.  `index` is the
0-based array position. -/
def createNewOverride (certificateId : String) (override : OverrideIntent)
    (index : Nat) : List (String × JVal) :=
  [("TagNumber", jstrField override.tagNumber),
   ("Description", jstrField override.description),
   ("OverrideTypeId", jidStr override.typeId),
   ("OverrideMethodId", jidStr override.methodId),
   ("OverrideAppliedStateId", jidStr override.appliedStateId),
   ("OverrideRemovedStateId", jidStr override.removedStateId),
   ("Comment", .str (jsOrStr override.comment "")),
   ("AdditionalValueAppliedState", .str (jsOrStr override.additionalValue "")),
   ("OverrideType", .obj [("Title", .str (jsOrStr override.typeTitle ""))]),
   ("OverrideMethod", .obj [("Title", .str (jsOrStr override.methodTitle ""))]),
   ("OverrideAppliedState", .obj [("Title", .str (jsOrStr override.appliedStateTitle ""))]),
   ("OverrideRemovedState", .obj [("Title", .str (jsOrStr override.removedStateTitle ""))]),
   ("CurrentOverrideStateId", .str "5"),
   ("CurrentState", .obj [("Title", .str notAppliedTitle)]),
   ("OrderId", .num ((index : Int) + 1)),
   ("OverrideIndex", .num ((index : Int) + 1)),
   ("SystemOverrideCertificateId", jnumOfParse (parseIntJS certificateId)),
   ("Id", .undefined),
   ("SystemOverrideCertificate", .null),
   ("OverrideTypes", .null),
   ("OverrideMethods", .null),
   ("OverrideAppliedStates", .null),
   ("OverrideRemovedStates", .null),
   ("OverrideCurrentStates", .null),
   ("OverridesJson", .null),
   ("Overrides", .arr []),
   ("ReturnUrl", .null),
   ("AdditionalValueRemovedState", .null),
   ("Title", .null),
   ("TypeMethod", .str ((jsOrStr override.typeTitle "" ++ " / " ++
                         jsOrStr override.methodTitle "").trim)),
   ("IsUnableToImplement", .bool false),
   ("UnableToImplementReason", .null),
   ("IsEditable", .bool false)]

/-- The object-level effect of `JSON.stringify`: entries whose value is
`undefined` are omitted from the serialized JSON. -/
def serializeRecord (fields : List (String × JVal)) : List (String × JVal) :=
  fields.filter (fun p => ! p.2.isUndefined)

/-- `List.map` with the element's 0-based position, starting at `i`
(models `Array.prototype.map`'s `(element, index)` callback). -/
def mapIdxFrom {α β : Type} (f : Nat → α → β) (i : Nat) : List α → List β
  | [] => []
  | a :: as => f i a :: mapIdxFrom f (i + 1) as

/-- `overridesArray.map(createNewOverride)`: the batch of override objects. -/
def submissionOverrides (certificateId : String)
    (overridesArray : List OverrideIntent) : List (List (String × JVal)) :=
  mapIdxFrom (fun i o => createNewOverride certificateId o i) 0 overridesArray

/-- The constant hidden form fields appended to the `FormData` (the
clock-dependent anti-forgery token, whose value no claim concerns, is kept
out of the deterministic model). -/
def hiddenFormFields (certificateId : String) : List (String × String) :=
  [("SystemOverrideCertificateId", certificateId),
   ("TagNumber", ""),
   ("Description", ""),
   ("OverrideTypeId", ""),
   ("OverrideMethodId", ""),
   ("Comment", ""),
   ("OverrideAppliedStateId", ""),
   ("AdditionalValueAppliedState", ""),
   ("OverrideRemovedStateId", ""),
   ("CurrentOverrideStateId", "5")]

/-- The training-environment base URL hardcoded in the source. -/
def submitBaseUrl : String := "https://eptw-training.sakhalinenergy.ru"

/-- The single HTTP request `addOverride` issues when validation passes:
URL, method, hidden form fields, and the decoded value of the
`OverridesJson` form field (the serialized batch). -/
structure SubmitRequest where
  url : String
  httpMethod : String
  formFields : List (String × String)
  overridesJson : List (List (String × JVal))

/-- The `overrideData` argument of `addOverride`: a single override object
or an array of them. -/
inductive OverrideInput where
  | single (o : OverrideIntent)
  | array (os : List OverrideIntent)

/-- `Array.isArray(overrideData) ? overrideData : [overrideData]`. -/
def normalizeInput : OverrideInput → List OverrideIntent
  | .single o => [o]
  | .array os => os

/-- The effectful part of `addOverride` up to the point the request is
handed to `fetch`: validation happens first and a thrown validation error
(`.error`) means no `SubmitRequest` is ever produced, hence no I/O.  A
successful result is the one request issued by the call (the function
performs exactly one `fetch`, with no retry). -/
def addOverridePipeline (certificateId : String)
    (overrideData : OverrideInput) : Except String SubmitRequest :=
  let overridesArray := normalizeInput overrideData
  let validationErrors := collectValidationErrors 0 overridesArray
  if validationErrors.isEmpty then
    .ok { url := submitBaseUrl ++ "/SOC/EditOverrides/" ++ certificateId
        , httpMethod := "POST"
        , formFields := hiddenFormFields certificateId
        , overridesJson :=
            (submissionOverrides certificateId overridesArray).map serializeRecord }
  else
    .error ("Validation failed:\n" ++ String.intercalate "\n" validationErrors)

/-- The observable part of a `fetch` response: status code, reason phrase,
and body.  `response.ok` is `200 ≤ status ≤ 299`. -/
structure HttpResponse where
  status : Nat
  statusText : String
  body : String

/-- `response.ok`. -/
def responseOk (r : HttpResponse) : Bool :=
  200 ≤ r.status && r.status ≤ 299

/-- The `.then` classifier of `addOverride` (lines 139-146 of the source):
a 2xx response is returned to the caller unchanged; any other response is
turned into a thrown `Server error: <status> <statusText>` (the `.catch`
only logs and rethrows, so the error reaches the caller verbatim). -/
def handleSubmitResponse (r : HttpResponse) : Except String HttpResponse :=
  if responseOk r then .ok r
  else .error ("Server error: " ++ toString r.status ++ " " ++ r.statusText)

/-!
## Cascade Resolver (spec-modelled)

The Type → Method → (Applied, Removed) cascade is implemented in the remote
application (`SOC.EditOverrides` in `app.min.js`); the repository holds only
its flow notes and trigger tests.  The resolver below is modelled from the
specification §4.3: a state machine over the four selection slots, with
asynchronous catalog fetches tagged by the selection that triggered them and
discarded on tag mismatch (supersession).
-/

/-- Modelled from the spec: the remote catalog (§4.2) — valid method ids per
type and valid applied/removed state ids per method. -/
structure Catalog where
  methodsForType : Int → List Int
  appliedForMethod : Int → List Int
  removedForMethod : Int → List Int

/-- Modelled from the spec: the resolver's observable state (§4.3). A slot
is `none` when `unset`.  `methodOptions` is the most recently applied method
list for the current `typeId` (`none` while no fetch for the current type
has completed); `stateOptions` likewise holds the `(applied, removed)` state
lists for the current `methodId`. -/
structure ResolverState where
  typeId : Option Int
  methodId : Option Int
  appliedStateId : Option Int
  removedStateId : Option Int
  methodOptions : Option (List Int)
  stateOptions : Option (List Int × List Int)

/-- All slots unset, no fetched options. -/
def initResolver : ResolverState :=
  { typeId := none, methodId := none, appliedStateId := none,
    removedStateId := none, methodOptions := none, stateOptions := none }

/-- Modelled from the spec: the events the resolver reacts to — the four
selection calls and the completions of the two kinds of catalog fetch.  A
completion event carries the tag (the selection value that triggered the
fetch); its payload is the catalog data for that tag. -/
inductive ResolverEvent where
  | selectType (id : Int)
  | selectMethod (id : Int)
  | selectAppliedState (id : Int)
  | selectRemovedState (id : Int)
  | methodsFetchComplete (forType : Int)
  | statesFetchComplete (forMethod : Int)
  | reset

/-- Modelled from the spec: one resolver transition (§4.3).  `selectType`
synchronously unsets every downstream slot and both option lists; a fetch
completion is applied only when its tag still matches the current parent
selection (last-writer-wins supersession), otherwise the state is unchanged;
a selection that would be an `InvalidSelection` (not in the currently
fetched option list, or no fetch completed yet) is refused, leaving the
state unchanged. -/
def resolverStep (cat : Catalog) (s : ResolverState) :
    ResolverEvent → ResolverState
  | .selectType id =>
      { typeId := some id, methodId := none, appliedStateId := none,
        removedStateId := none, methodOptions := none, stateOptions := none }
  | .methodsFetchComplete t =>
      if s.typeId = some t then
        { s with methodOptions := some (cat.methodsForType t) }
      else s
  | .selectMethod id =>
      match s.methodOptions with
      | some opts =>
          if id ∈ opts then
            { s with methodId := some id, appliedStateId := none,
                     removedStateId := none, stateOptions := none }
          else s
      | none => s
  | .statesFetchComplete m =>
      if s.methodId = some m then
        { s with
          stateOptions := some (cat.appliedForMethod m, cat.removedForMethod m) }
      else s
  | .selectAppliedState id =>
      match s.stateOptions with
      | some so => if id ∈ so.1 then { s with appliedStateId := some id } else s
      | none => s
  | .selectRemovedState id =>
      match s.stateOptions with
      | some so => if id ∈ so.2 then { s with removedStateId := some id } else s
      | none => s
  | .reset => initResolver

/-- Run the resolver from the initial state over a trace of events. -/
def resolverRun (cat : Catalog) (es : List ResolverEvent) : ResolverState :=
  es.foldl (resolverStep cat) initResolver

/-- The cascade consistency invariant: every non-unset slot is a valid child
of its parent slot's current value, and every fetched option list belongs to
the current parent selection. -/
def ResolverInv (cat : Catalog) (s : ResolverState) : Prop :=
  (∀ opts, s.methodOptions = some opts →
      ∃ t, s.typeId = some t ∧ opts = cat.methodsForType t) ∧
  (∀ m, s.methodId = some m →
      ∃ t, s.typeId = some t ∧ m ∈ cat.methodsForType t) ∧
  (∀ so, s.stateOptions = some so →
      ∃ m, s.methodId = some m ∧
        so = (cat.appliedForMethod m, cat.removedForMethod m)) ∧
  (∀ a, s.appliedStateId = some a →
      ∃ m, s.methodId = some m ∧ a ∈ cat.appliedForMethod m) ∧
  (∀ r, s.removedStateId = some r →
      ∃ m, s.methodId = some m ∧ r ∈ cat.removedForMethod m)

/-!
## Concrete fixtures and auxiliary predicates
-/

/-- `pat` occurs at the head of `s` (character-list prefix test). -/
def charsLead : List Char → List Char → Bool
  | [], _ => true
  | _ :: _, [] => false
  | a :: as, b :: bs => a == b && charsLead as bs

/-- `pat` occurs somewhere inside `s` (character-list substring test). -/
def charsOccur (pat : List Char) : List Char → Bool
  | [] => pat.isEmpty
  | b :: rest => charsLead pat (b :: rest) || charsOccur pat rest

/-- `pat` is a substring of `s`. -/
def strOccurs (pat s : String) : Bool := charsOccur pat.data s.data

/-- A fully-populated valid intent (the MOS example of the source). -/
def sampleIntent : OverrideIntent :=
  { tagNumber := some "MOS-TEST-001"
  , description := some "Тестовое переопределение МОС"
  , typeId := some 2
  , methodId := some 2
  , appliedStateId := some 3
  , removedStateId := some 4
  , comment := some "Добавлено автоматически через JS"
  , additionalValue := some ""
  , additionalValueRemoved := none
  , typeTitle := some "Программная блокировка при тех.обслуживании"
  , methodTitle := some "Установить MOS"
  , appliedStateTitle := some "MOS включен"
  , removedStateTitle := some "MOS выключен" }

/-- The empty property bag `{}` (the default argument of `addOverride`). -/
def emptyIntent : OverrideIntent :=
  { tagNumber := none, description := none, typeId := none, methodId := none
  , appliedStateId := none, removedStateId := none, comment := none
  , additionalValue := none, additionalValueRemoved := none, typeTitle := none
  , methodTitle := none, appliedStateTitle := none, removedStateTitle := none }

/-- An intent whose six required properties are all present but falsy
(empty strings and zero ids). -/
def falsyIntent : OverrideIntent :=
  { tagNumber := some "", description := some "", typeId := some 0
  , methodId := some 0, appliedStateId := some 0, removedStateId := some 0
  , comment := none, additionalValue := none, additionalValueRemoved := none
  , typeTitle := none, methodTitle := none, appliedStateTitle := none
  , removedStateTitle := none }

/-- The hardware-bypass intent of the specification's end-to-end scenario:
type 1, method 1, applied state 1, removed state 2. -/
def valveIntent : OverrideIntent :=
  { tagNumber := some "VALVE-001", description := some "Bypass"
  , typeId := some 1, methodId := some 1, appliedStateId := some 1
  , removedStateId := some 2, comment := none, additionalValue := none
  , additionalValueRemoved := none, typeTitle := none, methodTitle := none
  , appliedStateTitle := none, removedStateTitle := none }

/-- The catalog of the specification's mismatch scenario: Method 1 belongs
to Type 2 (so it is not a valid child of Type 1). -/
def specScenarioCatalog : Catalog :=
  { methodsForType := fun t => if t = 2 then [1] else []
  , appliedForMethod := fun m => if m = 1 then [1] else []
  , removedForMethod := fun m => if m = 1 then [2] else [] }

/-- A small concrete catalog used to instantiate the resolver theorems. -/
def demoCatalog : Catalog :=
  { methodsForType := fun t => if t = 1 then [10, 11] else [20]
  , appliedForMethod := fun m => [m + 100]
  , removedForMethod := fun m => [m + 200] }

/-!
## Helper lemmas
-/

/-- A parsed certificate id field is never `undefined` (it is a number, or
`null` for the `NaN` of a failed parse), so `JSON.stringify` keeps it. -/
theorem jnumOfParse_never_undefined (x : Option Int) : (jnumOfParse x).isUndefined = false := by
  cases x <;> rfl

/-- Indexed map agrees with positional access: the `k`-th output element is
`f` applied at offset `i + k` to the `k`-th input element. -/
theorem mapIdxFrom_getElem? {α β : Type} (f : Nat → α → β) (i k : Nat)
    (l : List α) : (mapIdxFrom f i l)[k]? = (l[k]?).map (f (i + k)) := by
  induction l generalizing i k with
  | nil => simp [mapIdxFrom]
  | cons a as ih =>
      cases k with
      | zero => simp [mapIdxFrom]
      | succ k =>
          have harith : i + 1 + k = i + (k + 1) := by omega
          simp [mapIdxFrom, ih (i + 1) k, harith]


/-- Each `<field> is required` message appears in the per-intent error list
exactly when the corresponding required property fails the truthiness
check. -/
theorem mem_requiredFieldErrors (o : OverrideIntent) :
    ("tagNumber is required" ∈ requiredFieldErrors o ↔ strFalsy o.tagNumber = true) ∧
    ("description is required" ∈ requiredFieldErrors o ↔ strFalsy o.description = true) ∧
    ("typeId is required" ∈ requiredFieldErrors o ↔ idFalsy o.typeId = true) ∧
    ("methodId is required" ∈ requiredFieldErrors o ↔ idFalsy o.methodId = true) ∧
    ("appliedStateId is required" ∈ requiredFieldErrors o ↔ idFalsy o.appliedStateId = true) ∧
    ("removedStateId is required" ∈ requiredFieldErrors o ↔ idFalsy o.removedStateId = true) := by
  unfold requiredFieldErrors
  cases strFalsy o.tagNumber <;> cases strFalsy o.description <;>
    cases idFalsy o.typeId <;> cases idFalsy o.methodId <;>
    cases idFalsy o.appliedStateId <;> cases idFalsy o.removedStateId <;> decide

/-- The validation loop reports at least one error when some intent has a
missing required field. -/
theorem collect_ne_nil_of_mem (os : List OverrideIntent) (o : OverrideIntent)
    (ho : o ∈ os) (hne : requiredFieldErrors o ≠ []) (i : Nat) :
    collectValidationErrors i os ≠ [] := by
  induction os generalizing i with
  | nil => cases ho
  | cons a as ih =>
      intro hcontra
      rw [collectValidationErrors] at hcontra
      obtain ⟨h1, h2⟩ := List.append_eq_nil.mp hcontra
      cases List.mem_cons.mp ho with
      | inl heq =>
          subst heq
          cases hh : requiredFieldErrors o with
          | nil => exact hne hh
          | cons x xs => simp [hh] at h1
      | inr hmem => exact ih hmem (i + 1) h2

/-- The validation loop reports nothing when every intent passes the
required-field check. -/
theorem collect_nil_of_valid (os : List OverrideIntent)
    (h : ∀ o ∈ os, requiredFieldErrors o = []) (i : Nat) :
    collectValidationErrors i os = [] := by
  induction os generalizing i with
  | nil => rfl
  | cons a as ih =>
      rw [collectValidationErrors]
      have ha : requiredFieldErrors a = [] := h a (List.mem_cons_self a as)
      simp [ha, ih (fun o hmem => h o (List.mem_cons_of_mem a hmem)) (i + 1)]

/-- The validation loop emits, for the `k`-th intent (0-based, counter
starting at `i`), the `Override <i+k+1>: <messages>` line whenever that
intent has missing required fields. -/
theorem mem_collect (os : List OverrideIntent) (k i : Nat) (o : OverrideIntent)
    (hk : os[k]? = some o) (hne : requiredFieldErrors o ≠ []) :
    ("Override " ++ toString (i + k + 1) ++ ": " ++
      String.intercalate ", " (requiredFieldErrors o)) ∈
        collectValidationErrors i os := by
  induction os generalizing i k with
  | nil => simp at hk
  | cons a as ih =>
      cases k with
      | zero =>
          simp at hk
          subst hk
          rw [collectValidationErrors]
          have hfalse : (requiredFieldErrors a).isEmpty = false := by
            cases hh : requiredFieldErrors a with
            | nil => exact absurd hh hne
            | cons x xs => rfl
          simp [hfalse]
      | succ k =>
          simp at hk
          rw [collectValidationErrors]
          apply List.mem_append_right
          have harith : i + 1 + k + 1 = i + (k + 1) + 1 := by omega
          rw [← harith]
          exact ih k (i + 1) hk

/-- C9: passing a single (non-array) intent object to `addOverride` is
exactly equivalent to passing a one-element array containing it — the same
validation outcome and, when valid, the same submission request. -/
theorem single_intent_equals_singleton_array (cid : String) (x : OverrideIntent) :
    addOverridePipeline cid (.single x) = addOverridePipeline cid (.array [x]) := rfl

/-- C10: the serialized record's `AdditionalValueRemovedState` is
unconditionally `null`; any caller-supplied removed-side additional value is
ignored (the record does not depend on it); and the single intent field
`additionalValue` is mapped only to `AdditionalValueAppliedState`,
defaulting to the empty string when absent. -/
theorem additional_value_mapping (cid : String) (o : OverrideIntent) (i : Nat) :
    ((createNewOverride cid o i).lookup "AdditionalValueRemovedState" = some .null) ∧
    ((createNewOverride cid o i).lookup "AdditionalValueAppliedState" =
        some (.str (jsOrStr o.additionalValue ""))) ∧
    (∀ v, createNewOverride cid { o with additionalValueRemoved := v } i =
        createNewOverride cid o i) ∧
    (o.additionalValue = none →
        (createNewOverride cid o i).lookup "AdditionalValueAppliedState" =
          some (.str "")) := by
  refine ⟨rfl, rfl, fun v => rfl, fun h => ?_⟩
  simp [createNewOverride, List.lookup, jsOrStr, h]

/-- Witness for C10 at the empty intent: the applied-side additional value
defaults to the empty string. -/
theorem additional_value_mapping_witness :
    (createNewOverride "1054470" emptyIntent 0).lookup "AdditionalValueAppliedState" =
      some (.str "") :=
  (additional_value_mapping "1054470" emptyIntent 0).2.2.2 rfl

/-- C1: for every array of valid intents and every certificateId, the batch
builder assigns order fields by array position, 1-based and dense — the
record at 0-based position `k` has `OrderId = k+1` and
`OverrideIndex = k+1` — and every record carries the same
`SystemOverrideCertificateId`, the `parseInt` form of the supplied
certificateId. -/
theorem batch_order_dense_and_certificate_stamped
    (cid : String) (n : Int) (os : List OverrideIntent)
    (hcid : parseIntJS cid = some n)
    (hvalid : ∀ o ∈ os, requiredFieldErrors o = [])
    (k : Nat) (rec : List (String × JVal))
    (hrec : (submissionOverrides cid os)[k]? = some rec) :
    rec.lookup "OrderId" = some (.num ((k : Int) + 1)) ∧
    rec.lookup "OverrideIndex" = some (.num ((k : Int) + 1)) ∧
    rec.lookup "SystemOverrideCertificateId" = some (.num n) := by
  rw [submissionOverrides, mapIdxFrom_getElem?] at hrec
  simp at hrec
  obtain ⟨o, ho, hrec⟩ := hrec
  subst hrec
  refine ⟨rfl, rfl, ?_⟩
  have hl : (createNewOverride cid o k).lookup "SystemOverrideCertificateId" =
      some (jnumOfParse (parseIntJS cid)) := rfl
  rw [hl, hcid]
  rfl

/-- Witness for C1 on a one-element batch for certificate `1054470`. -/
theorem batch_order_witness :
    (createNewOverride "1054470" sampleIntent 0).lookup "OrderId" =
        some (.num ((0 : Nat) + 1 : Int)) ∧
    (createNewOverride "1054470" sampleIntent 0).lookup "OverrideIndex" =
        some (.num ((0 : Nat) + 1 : Int)) ∧
    (createNewOverride "1054470" sampleIntent 0).lookup "SystemOverrideCertificateId" =
        some (.num 1054470) :=
  batch_order_dense_and_certificate_stamped "1054470" 1054470 [sampleIntent]
    (by decide) (by decide) 0 (createNewOverride "1054470" sampleIntent 0) rfl

/-- C3: for every valid intent, the serialized record encodes each of the
four selection ids as the string form of the intent's numeric id, fixes
`CurrentOverrideStateId` to the "Not Applied" sentinel `"5"`, and the `Id`
key is absent from the serialized JSON (dropped because its value is
`undefined`). -/
theorem serialized_record_encoding
    (cid : String) (o : OverrideIntent) (i : Nat)
    (tag de : String) (t m a r : Int)
    (htag : o.tagNumber = some tag) (hde : o.description = some de)
    (ht : o.typeId = some t) (hm : o.methodId = some m)
    (ha : o.appliedStateId = some a) (hr : o.removedStateId = some r) :
    ((serializeRecord (createNewOverride cid o i)).lookup "OverrideTypeId" =
        some (.str (toString t))) ∧
    ((serializeRecord (createNewOverride cid o i)).lookup "OverrideMethodId" =
        some (.str (toString m))) ∧
    ((serializeRecord (createNewOverride cid o i)).lookup "OverrideAppliedStateId" =
        some (.str (toString a))) ∧
    ((serializeRecord (createNewOverride cid o i)).lookup "OverrideRemovedStateId" =
        some (.str (toString r))) ∧
    ((serializeRecord (createNewOverride cid o i)).lookup "CurrentOverrideStateId" =
        some (.str "5")) ∧
    ((serializeRecord (createNewOverride cid o i)).lookup "Id" = none) := by
  cases hp : parseIntJS cid <;>
    simp [serializeRecord, createNewOverride, htag, hde, ht, hm, ha, hr,
      jstrField, jidStr, jnumOfParse, hp, JVal.isUndefined, List.filter, List.lookup]

/-- Witness for C3 at the sample MOS intent. -/
theorem serialized_record_encoding_witness :
    (serializeRecord (createNewOverride "1054470" sampleIntent 0)).lookup "Id" =
      none :=
  (serialized_record_encoding "1054470" sampleIntent 0
    "MOS-TEST-001" "Тестовое переопределение МОС" 2 2 3 4
    rfl rfl rfl rfl rfl rfl).2.2.2.2.2

/-- C2: for every input (single intent or array) in which some intent fails
the required-field check, `addOverride` fails with the validation error
built from the per-intent messages, each invalid intent's message is
present, and each of the six `<field> is required` messages appears in an
intent's list exactly when that field fails the structural presence
(truthiness) check — so every missing field is named, not just the first.
The check is a function of the intent alone: no catalog is consulted. -/
theorem validation_names_all_missing_fields
    (cid : String) (input : OverrideInput)
    (hbad : ∃ o ∈ normalizeInput input, requiredFieldErrors o ≠ []) :
    (addOverridePipeline cid input =
      .error ("Validation failed:\n" ++ String.intercalate "\n"
        (collectValidationErrors 0 (normalizeInput input)))) ∧
    (∀ k o, (normalizeInput input)[k]? = some o → requiredFieldErrors o ≠ [] →
      ("Override " ++ toString (k + 1) ++ ": " ++
        String.intercalate ", " (requiredFieldErrors o)) ∈
          collectValidationErrors 0 (normalizeInput input)) ∧
    (∀ p : OverrideIntent,
      ("tagNumber is required" ∈ requiredFieldErrors p ↔ strFalsy p.tagNumber = true) ∧
      ("description is required" ∈ requiredFieldErrors p ↔ strFalsy p.description = true) ∧
      ("typeId is required" ∈ requiredFieldErrors p ↔ idFalsy p.typeId = true) ∧
      ("methodId is required" ∈ requiredFieldErrors p ↔ idFalsy p.methodId = true) ∧
      ("appliedStateId is required" ∈ requiredFieldErrors p ↔
          idFalsy p.appliedStateId = true) ∧
      ("removedStateId is required" ∈ requiredFieldErrors p ↔
          idFalsy p.removedStateId = true)) := by
  obtain ⟨o, ho, hne⟩ := hbad
  refine ⟨?_, ?_, mem_requiredFieldErrors⟩
  · have hcol := collect_ne_nil_of_mem (normalizeInput input) o ho hne 0
    rw [addOverridePipeline]
    have : (collectValidationErrors 0 (normalizeInput input)).isEmpty = false := by
      cases hh : collectValidationErrors 0 (normalizeInput input) with
      | nil => exact absurd hh hcol
      | cons x xs => rfl
    simp [this]
  · intro k p hk hpne
    have := mem_collect (normalizeInput input) k 0 p hk hpne
    simpa using this

/-- Witness for C2 at the empty intent. -/
theorem validation_names_all_missing_fields_witness :
    addOverridePipeline "1054470" (.single emptyIntent) =
      .error ("Validation failed:\n" ++ String.intercalate "\n"
        (collectValidationErrors 0 (normalizeInput (.single emptyIntent)))) :=
  (validation_names_all_missing_fields "1054470" (.single emptyIntent)
    ⟨emptyIntent, by simp [normalizeInput], by decide⟩).1

/-- C4: when any intent is invalid the pipeline fails before any I/O — the
result is a thrown validation error and no `SubmitRequest` (the value handed
to `fetch`) is ever produced. -/
theorem validation_failure_issues_no_request
    (cid : String) (input : OverrideInput)
    (hbad : ∃ o ∈ normalizeInput input, requiredFieldErrors o ≠ []) :
    (∃ msg, addOverridePipeline cid input = .error msg) ∧
    (∀ req, addOverridePipeline cid input ≠ .ok req) := by
  obtain ⟨o, ho, hne⟩ := hbad
  have hcol := collect_ne_nil_of_mem (normalizeInput input) o ho hne 0
  have hempty : (collectValidationErrors 0 (normalizeInput input)).isEmpty = false := by
    cases hh : collectValidationErrors 0 (normalizeInput input) with
    | nil => exact absurd hh hcol
    | cons x xs => rfl
  rw [addOverridePipeline]
  simp [hempty]

/-- Witness for C4 at the empty intent. -/
theorem validation_failure_issues_no_request_witness :
    (addOverridePipeline "1054470" (.array [emptyIntent])).isOk = false := by
  have h := validation_failure_issues_no_request "1054470" (.array [emptyIntent])
    ⟨emptyIntent, by simp [normalizeInput], by decide⟩
  cases hres : addOverridePipeline "1054470" (.array [emptyIntent]) with
  | ok req => exact absurd hres (h.2 req)
  | error msg => rfl

/-- C8: the required-field check treats any falsy field value as absent —
an intent supplying `tagNumber`/`description` as the empty string or any of
the four ids as `0` has that field reported as missing and the submission is
rejected, even though the field is present on the intent object. -/
theorem falsy_fields_rejected_as_missing (o : OverrideIntent) :
    (o.tagNumber = some "" → "tagNumber is required" ∈ requiredFieldErrors o) ∧
    (o.description = some "" → "description is required" ∈ requiredFieldErrors o) ∧
    (o.typeId = some 0 → "typeId is required" ∈ requiredFieldErrors o) ∧
    (o.methodId = some 0 → "methodId is required" ∈ requiredFieldErrors o) ∧
    (o.appliedStateId = some 0 → "appliedStateId is required" ∈ requiredFieldErrors o) ∧
    (o.removedStateId = some 0 → "removedStateId is required" ∈ requiredFieldErrors o) ∧
    ((o.tagNumber = some "" ∨ o.description = some "" ∨ o.typeId = some 0 ∨
        o.methodId = some 0 ∨ o.appliedStateId = some 0 ∨ o.removedStateId = some 0) →
      ∀ cid req, addOverridePipeline cid (.single o) ≠ .ok req) := by
  have hm := mem_requiredFieldErrors o
  refine ⟨fun h => hm.1.mpr (by rw [h]; rfl),
          fun h => hm.2.1.mpr (by rw [h]; rfl),
          fun h => hm.2.2.1.mpr (by rw [h]; rfl),
          fun h => hm.2.2.2.1.mpr (by rw [h]; rfl),
          fun h => hm.2.2.2.2.1.mpr (by rw [h]; rfl),
          fun h => hm.2.2.2.2.2.mpr (by rw [h]; rfl), ?_⟩
  intro hfalsy cid req
  have hne : requiredFieldErrors o ≠ [] := by
    rcases hfalsy with h | h | h | h | h | h
    · exact List.ne_nil_of_mem (hm.1.mpr (by rw [h]; rfl))
    · exact List.ne_nil_of_mem (hm.2.1.mpr (by rw [h]; rfl))
    · exact List.ne_nil_of_mem (hm.2.2.1.mpr (by rw [h]; rfl))
    · exact List.ne_nil_of_mem (hm.2.2.2.1.mpr (by rw [h]; rfl))
    · exact List.ne_nil_of_mem (hm.2.2.2.2.1.mpr (by rw [h]; rfl))
    · exact List.ne_nil_of_mem (hm.2.2.2.2.2.mpr (by rw [h]; rfl))
  have hcol := collect_ne_nil_of_mem (normalizeInput (.single o)) o (by simp [normalizeInput]) hne 0
  have hempty : (collectValidationErrors 0 (normalizeInput (.single o))).isEmpty = false := by
    cases hh : collectValidationErrors 0 (normalizeInput (.single o)) with
    | nil => exact absurd hh hcol
    | cons x xs => rfl
  rw [addOverridePipeline]
  simp [hempty]

/-- Witness for C8 at the all-falsy intent. -/
theorem falsy_fields_rejected_as_missing_witness :
    "tagNumber is required" ∈ requiredFieldErrors falsyIntent ∧
    (addOverridePipeline "1054470" (.single falsyIntent)).isOk = false := by
  have h := falsy_fields_rejected_as_missing falsyIntent
  refine ⟨h.1 rfl, ?_⟩
  have hrej := h.2.2.2.2.2.2 (Or.inl rfl) "1054470"
  cases hres : addOverridePipeline "1054470" (.single falsyIntent) with
  | ok req => exact absurd hres (hrej req)
  | error msg => rfl

/-- C5 counterexample: a non-2xx response yields
`Server error: <status> <statusText>` — the response body
(`duplicate override for tag VALVE-001` here) does not occur in the error
surfaced to the caller, refuting "surfaces the status and body verbatim". -/
theorem rejected_response_body_not_surfaced :
    handleSubmitResponse
        { status := 500, statusText := "Internal Server Error",
          body := "duplicate override for tag VALVE-001" } =
      .error "Server error: 500 Internal Server Error" ∧
    strOccurs "duplicate override for tag VALVE-001"
        "Server error: 500 Internal Server Error" = false := by
  exact ⟨rfl, by decide⟩

/-- C5 amended: the submission step performs exactly one request per call
with no automatic retry (the pipeline yields a single `SubmitRequest` and
the classifier below is applied to its one response); a 2xx response is
returned to the caller unchanged, and every non-2xx response yields an
error surfacing the status and the status text (not the response body)
rather than being silently swallowed. -/
theorem submit_response_classification (r : HttpResponse) :
    (responseOk r = true → handleSubmitResponse r = .ok r) ∧
    (responseOk r = false → handleSubmitResponse r =
      .error ("Server error: " ++ toString r.status ++ " " ++ r.statusText)) := by
  constructor <;> intro h <;> simp [handleSubmitResponse, h]

/-- Witness for the C5 amended theorem at a 204 and a 404 response. -/
theorem submit_response_classification_witness :
    handleSubmitResponse { status := 204, statusText := "No Content", body := "" } =
      .ok { status := 204, statusText := "No Content", body := "" } ∧
    handleSubmitResponse { status := 404, statusText := "Not Found", body := "x" } =
      .error ("Server error: " ++ toString (404 : Nat) ++ " " ++ "Not Found") :=
  ⟨(submit_response_classification
      { status := 204, statusText := "No Content", body := "" }).1 (by decide),
   (submit_response_classification
      { status := 404, statusText := "Not Found", body := "x" }).2 (by decide)⟩

/-- C6 counterexample: with the specification's mismatch catalog (Method 1
belongs to Type 2, not Type 1), the VALVE-001 intent selecting
`typeId = 1, methodId = 1` is not rejected — the pipeline still produces a
submission request, so no `InvalidSelection`-class error is raised and the
Submission Client is called. -/
theorem catalog_mismatch_not_rejected_locally :
    ((1 : Int) ∈ specScenarioCatalog.methodsForType 1 → False) ∧
    (addOverridePipeline "1054470" (.single valveIntent)).isOk = true := by
  constructor
  · intro h
    simp [specScenarioCatalog] at h
  · decide

/-- C6 amended: no catalog cross-entity check is performed locally — a
batch whose `methodId` is not a valid child of its `typeId` under any
catalog still passes the (purely structural) local validation and a
submission request is issued; cross-entity validation is delegated to the
backend. -/
theorem no_local_catalog_cross_check
    (cat : Catalog) (cid : String) (o : OverrideIntent) (t m : Int)
    (ht : o.typeId = some t) (hm : o.methodId = some m)
    (hmis : m ∉ cat.methodsForType t)
    (hvalid : requiredFieldErrors o = []) :
    (addOverridePipeline cid (.single o)).isOk = true := by
  rw [addOverridePipeline]
  have hnil : collectValidationErrors 0 (normalizeInput (.single o)) = [] :=
    collect_nil_of_valid _ (by intro p hp; simp [normalizeInput] at hp; rw [hp]; exact hvalid) 0
  simp [hnil, Except.isOk, Except.toBool]

/-- Witness for the C6 amended theorem at the specification scenario. -/
theorem no_local_catalog_cross_check_witness :
    (addOverridePipeline "1054470" (.single valveIntent)).isOk = true :=
  no_local_catalog_cross_check specScenarioCatalog "1054470" valveIntent 1 1
    rfl rfl (by decide) (by decide)

/-- Every resolver transition preserves the cascade invariant. -/
theorem resolverStep_inv (cat : Catalog) (s : ResolverState) (e : ResolverEvent)
    (h : ResolverInv cat s) : ResolverInv cat (resolverStep cat s e) := by
  obtain ⟨hMO, hM, hSO, hA, hR⟩ := h
  cases e with
  | selectType id =>
      simp [resolverStep, ResolverInv]
  | reset =>
      simp [resolverStep, ResolverInv, initResolver]
  | methodsFetchComplete t =>
      by_cases hc : s.typeId = some t
      · refine ⟨?_, ?_, ?_, ?_, ?_⟩ <;> simp only [resolverStep, if_pos hc]
        · intro opts hopts
          simp at hopts
          exact ⟨t, hc, hopts.symm⟩
        · intro m hm
          exact hM m hm
        · intro so hso
          exact hSO so hso
        · intro a ha
          exact hA a ha
        · intro r hr
          exact hR r hr
      · simp only [resolverStep, if_neg hc]
        exact ⟨hMO, hM, hSO, hA, hR⟩
  | selectMethod id =>
      cases hmo : s.methodOptions with
      | none =>
          simp only [resolverStep, hmo]
          exact ⟨hMO, hM, hSO, hA, hR⟩
      | some opts =>
          by_cases hin : id ∈ opts
          · obtain ⟨t, ht, hopts⟩ := hMO opts hmo
            refine ⟨?_, ?_, ?_, ?_, ?_⟩ <;> simp only [resolverStep, hmo, if_pos hin]
            · intro os2 h2
              simp at h2
              subst h2
              exact hMO opts hmo
            · intro m hm
              simp at hm
              subst hm
              exact ⟨t, ht, hopts ▸ hin⟩
            · intro so hso
              simp at hso
            · intro a ha
              simp at ha
            · intro r hr
              simp at hr
          · simp only [resolverStep, hmo, if_neg hin]
            exact ⟨hMO, hM, hSO, hA, hR⟩
  | statesFetchComplete m =>
      by_cases hc : s.methodId = some m
      · refine ⟨?_, ?_, ?_, ?_, ?_⟩ <;> simp only [resolverStep, if_pos hc]
        · intro opts hopts
          exact hMO opts hopts
        · intro m2 hm2
          exact hM m2 hm2
        · intro so hso
          simp at hso
          exact ⟨m, hc, hso.symm⟩
        · intro a ha
          exact hA a ha
        · intro r hr
          exact hR r hr
      · simp only [resolverStep, if_neg hc]
        exact ⟨hMO, hM, hSO, hA, hR⟩
  | selectAppliedState id =>
      cases hso : s.stateOptions with
      | none =>
          simp only [resolverStep, hso]
          exact ⟨hMO, hM, hSO, hA, hR⟩
      | some so =>
          by_cases hin : id ∈ so.1
          · obtain ⟨m, hm, hsoeq⟩ := hSO so hso
            refine ⟨?_, ?_, ?_, ?_, ?_⟩ <;> simp only [resolverStep, hso, if_pos hin]
            · intro opts hopts
              exact hMO opts hopts
            · intro m2 hm2
              exact hM m2 hm2
            · intro so2 hso2
              simp at hso2
              subst hso2
              exact hSO so hso
            · intro a ha
              simp at ha
              subst ha
              refine ⟨m, hm, ?_⟩
              have : so.1 = cat.appliedForMethod m := by rw [hsoeq]
              exact this ▸ hin
            · intro r hr
              exact hR r hr
          · simp only [resolverStep, hso, if_neg hin]
            exact ⟨hMO, hM, hSO, hA, hR⟩
  | selectRemovedState id =>
      cases hso : s.stateOptions with
      | none =>
          simp only [resolverStep, hso]
          exact ⟨hMO, hM, hSO, hA, hR⟩
      | some so =>
          by_cases hin : id ∈ so.2
          · obtain ⟨m, hm, hsoeq⟩ := hSO so hso
            refine ⟨?_, ?_, ?_, ?_, ?_⟩ <;> simp only [resolverStep, hso, if_pos hin]
            · intro opts hopts
              exact hMO opts hopts
            · intro m2 hm2
              exact hM m2 hm2
            · intro so2 hso2
              simp at hso2
              subst hso2
              exact hSO so hso
            · intro a ha
              exact hA a ha
            · intro r hr
              simp at hr
              subst hr
              refine ⟨m, hm, ?_⟩
              have : so.2 = cat.removedForMethod m := by rw [hsoeq]
              exact this ▸ hin
          · simp only [resolverStep, hso, if_neg hin]
            exact ⟨hMO, hM, hSO, hA, hR⟩

/-- The invariant holds along any run started in an invariant state. -/
theorem resolverFold_inv (cat : Catalog) (es : List ResolverEvent) :
    ∀ s, ResolverInv cat s → ResolverInv cat (es.foldl (resolverStep cat) s) := by
  induction es with
  | nil => intro s h; exact h
  | cons e es ih => intro s h; exact ih _ (resolverStep_inv cat s e h)

/-- The initial resolver state satisfies the invariant. -/
theorem initResolver_inv (cat : Catalog) : ResolverInv cat initResolver := by
  simp [ResolverInv, initResolver]


/-- C7 (spec-modelled): under every interleaving of selection calls and
asynchronous catalog-fetch completions, every observable resolver state
satisfies the cascade invariant — each non-unset slot is a valid child of
its parent slot's current value — and a fetch whose triggering selection has
been superseded is never observable: after `selectType A` then
`selectType B`, the later arrival of `A`'s method list is discarded and the
method options reflect only `B`. -/
theorem cascade_invariant_and_supersession (cat : Catalog) (es : List ResolverEvent) :
    ResolverInv cat (resolverRun cat es) ∧
    (∀ A B : Int, A ≠ B →
      (resolverStep cat (resolverRun cat (es ++ [.selectType A, .selectType B]))
          (.methodsFetchComplete A)).methodOptions = none ∧
      (resolverStep cat (resolverRun cat (es ++ [.selectType A, .selectType B]))
          (.methodsFetchComplete B)).methodOptions =
        some (cat.methodsForType B)) := by
  constructor
  · exact resolverFold_inv cat es initResolver (initResolver_inv cat)
  · intro A B hAB
    have hBA : ¬ ((some B : Option Int) = some A) := by
      simp
      intro heq
      exact hAB heq.symm
    have hrun : resolverRun cat (es ++ [.selectType A, .selectType B]) =
        { typeId := some B, methodId := none, appliedStateId := none,
          removedStateId := none, methodOptions := none, stateOptions := none } := by
      rw [resolverRun, List.foldl_append]
      rfl
    rw [hrun]
    constructor
    · simp only [resolverStep]
      rw [if_neg hBA]
    · simp [resolverStep]

/-- Witness for C7 at a concrete catalog, the empty trace and
`A = 1, B = 2`. -/
theorem cascade_invariant_and_supersession_witness :
    ResolverInv demoCatalog (resolverRun demoCatalog []) ∧
    (resolverStep demoCatalog
        (resolverRun demoCatalog ([] ++ [.selectType 1, .selectType 2]))
        (.methodsFetchComplete 1)).methodOptions = none :=
  ⟨(cascade_invariant_and_supersession demoCatalog []).1,
   ((cascade_invariant_and_supersession demoCatalog []).2 1 2 (by decide)).1⟩

end AutoSOC
